import Mathlib

/-!
Verification of the incremental-copy ETL script (`etl.py`).

The script moves rows from source tables to destination tables, tracking a
per-relation watermark in a log table.  We give a shallow embedding: each SQL
statement the script issues is modelled as a pure function on explicit table
states (lists of records), and the strings the script builds are rebuilt by
the same concatenations.  Dates/timestamps are modelled as `Int` (days), and a
`DATERANGE(lo, NULL, '[)')` containment test becomes the predicate
`lo ≤ t` (or `True` when the lower bound is SQL NULL, which PostgreSQL treats
as unbounded).
-/

set_option autoImplicit false

namespace Etl

/-- `Relation = namedtuple("Relation", ("db", "schema", "name"))` from `etl.py`. -/
structure Relation where
  db : String
  schema : String
  name : String
deriving DecidableEq, Repr

/-- `Column = namedtuple("Column", ("name", "type"))` from `etl.py`. -/
structure Column where
  name : String
  type : String
deriving DecidableEq, Repr

/-- One row of the watermark log table (`schema_name TEXT, relation_name TEXT,
loaded TIMESTAMPTZ`), with the timestamp modelled as `Int`. -/
structure WatermarkRec where
  schema_name : String
  relation_name : String
  loaded : Int
deriving DecidableEq, Repr

/-- The `WHERE schema_name=%s AND relation_name=%s` predicate used by both
`get_last_uploaded_time` and `log_upload` (parameters `(rel.schema, rel.name)`). -/
def matchesRel (rel : Relation) (w : WatermarkRec) : Bool :=
  w.schema_name == rel.schema && w.relation_name == rel.name

/-- Embedding of `get_last_uploaded_time(rel, log)` (etl.py lines 71-80):
`SELECT loaded FROM log WHERE schema_name=%s AND relation_name=%s;` followed by
`fetchone()`; returns the `loaded` field of the first matching row, or `none`
when no row matches (the Python function falls through and returns `None`).
The log table's contents are passed explicitly as `logTbl`. -/
def get_last_uploaded_time (rel : Relation) (logTbl : List WatermarkRec) : Option Int :=
  (logTbl.find? (matchesRel rel)).map WatermarkRec.loaded

/-- Embedding of `log_upload(rel, log, last_upload)` (etl.py lines 105-116):
`DELETE FROM log WHERE schema_name=%s AND relation_name=%s;` removes every
matching row, then `INSERT INTO log (schema_name, relation_name, loaded)
VALUES (%s, %s, %s);` appends the fresh record. -/
def log_upload (rel : Relation) (logTbl : List WatermarkRec) (last_upload : Int) :
    List WatermarkRec :=
  (logTbl.filter (fun w => !(matchesRel rel w))) ++ [⟨rel.schema, rel.name, last_upload⟩]

/-- Number of watermark records stored for `rel`'s (schema, name) pair. -/
def countWatermarks (rel : Relation) (logTbl : List WatermarkRec) : Nat :=
  (logTbl.filter (matchesRel rel)).length

lemma matchesRel_mk (rel : Relation) (t : Int) :
    matchesRel rel ⟨rel.schema, rel.name, t⟩ = true := by
  simp [matchesRel]

lemma find?_filter_not_matches (rel : Relation) (logTbl : List WatermarkRec) :
    (logTbl.filter (fun w => !(matchesRel rel w))).find? (matchesRel rel) = none := by
  induction logTbl with
  | nil => rfl
  | cons w ws ih =>
      by_cases h : matchesRel rel w = true
      · simp [List.filter_cons, h, ih]
      · simp only [Bool.not_eq_true] at h
        simp [List.filter_cons, h, List.find?_cons, ih]

/-- Reading right after writing returns the just-written timestamp. -/
lemma read_after_write (rel : Relation) (logTbl : List WatermarkRec) (t : Int) :
    get_last_uploaded_time rel (log_upload rel logTbl t) = some t := by
  unfold get_last_uploaded_time log_upload
  rw [List.find?_append, find?_filter_not_matches]
  simp [List.find?_cons, matchesRel_mk]

/-- After a write, the log holds exactly one record for the written pair. -/
lemma count_after_write (rel : Relation) (logTbl : List WatermarkRec) (t : Int) :
    countWatermarks rel (log_upload rel logTbl t) = 1 := by
  unfold countWatermarks log_upload
  rw [List.filter_append]
  have hleft : (logTbl.filter (fun w => !(matchesRel rel w))).filter (matchesRel rel) = [] := by
    induction logTbl with
    | nil => rfl
    | cons w ws ih =>
        by_cases h : matchesRel rel w = true
        · simp [List.filter_cons, h, ih]
        · simp only [Bool.not_eq_true] at h
          simp [List.filter_cons, h, ih]
  rw [hleft]
  simp [List.filter_cons, matchesRel_mk]

/-- C3: for every relation and log-table state, writing a watermark with
`log_upload` and then reading it back with `get_last_uploaded_time` returns
exactly the written timestamp, and afterwards the log table holds exactly one
record for that (schema_name, relation_name) pair: each write deletes the
prior record(s) before inserting the fresh one, so rows never accumulate. -/
theorem log_upload_then_read (rel : Relation) (logTbl : List WatermarkRec) (t : Int) :
    get_last_uploaded_time rel (log_upload rel logTbl t) = some t ∧
    countWatermarks rel (log_upload rel logTbl t) = 1 :=
  ⟨read_after_write rel logTbl t, count_after_write rel logTbl t⟩

/-- C7: for a relation with no watermark record stored in the log table,
`get_last_uploaded_time` returns none. -/
theorem get_last_uploaded_time_absent_none (rel : Relation) (logTbl : List WatermarkRec)
    (habs : ∀ w ∈ logTbl, matchesRel rel w = false) :
    get_last_uploaded_time rel logTbl = none := by
  unfold get_last_uploaded_time
  have : logTbl.find? (matchesRel rel) = none := by
    rw [List.find?_eq_none]
    intro w hw
    simp [habs w hw]
  rw [this]
  rfl

/-- Witness for C7 at a concrete log table holding only a record for another
relation. -/
theorem get_last_uploaded_time_absent_none_witness :
    (∀ w ∈ [(⟨"public", "company", 7⟩ : WatermarkRec)],
        matchesRel ⟨"target", "public", "address"⟩ w = false) ∧
    get_last_uploaded_time ⟨"target", "public", "address"⟩
        [⟨"public", "company", 7⟩] = none :=
  ⟨by decide, get_last_uploaded_time_absent_none _ _ (by decide)⟩

/-! ### Schema provisioning (`make_sure_table_exists`, etl.py lines 59-68) -/

/-- Definition stored for a provisioned table: the column list and the key
column that received the UNIQUE constraint. -/
structure TableDef where
  columns : List Column
  key : Option String
deriving DecidableEq, Repr

/-- State of one database's catalog: the tables that exist, each identified by
its (schema, name) pair. -/
abbrev DbState := List ((String × String) × TableDef)

/-- Whether a table with `rel`'s (schema, name) already exists. -/
def tableExists (db : DbState) (rel : Relation) : Bool :=
  db.any (fun t => t.1 == (rel.schema, rel.name))

/-- Embedding of `make_sure_table_exists(rel, columns, key)`: it executes
`CREATE TABLE IF NOT EXISTS "schema"."name" (...)`.  Under the `IF NOT EXISTS`
semantics the statement is a no-op when the table already exists — it raises
no duplicate-table error and alters nothing — and otherwise creates the table
with the given column definitions; hence the model is total (no error case). -/
def make_sure_table_exists (db : DbState) (rel : Relation) (columns : List Column)
    (key : Option String) : DbState :=
  if tableExists db rel then db
  else db ++ [((rel.schema, rel.name), ⟨columns, key⟩)]

/-- Number of catalog entries carrying `rel`'s (schema, name). -/
def countTables (db : DbState) (rel : Relation) : Nat :=
  (db.filter (fun t => t.1 == (rel.schema, rel.name))).length

lemma tableExists_iff_countTables_pos (db : DbState) (rel : Relation) :
    tableExists db rel = true ↔ 0 < countTables db rel := by
  unfold tableExists countTables
  rw [List.any_eq_true, List.length_pos_iff_exists_mem]
  constructor
  · rintro ⟨t, ht, hp⟩
    exact ⟨t, List.mem_filter.mpr ⟨ht, hp⟩⟩
  · rintro ⟨t, ht⟩
    rcases List.mem_filter.mp ht with ⟨ht1, ht2⟩
    exact ⟨t, ht1, ht2⟩

lemma tableExists_make_sure (db : DbState) (rel : Relation) (columns : List Column)
    (key : Option String) :
    tableExists (make_sure_table_exists db rel columns key) rel = true := by
  unfold make_sure_table_exists
  by_cases h : tableExists db rel = true
  · simp [h]
  · simp only [h, if_neg, Bool.not_eq_true] at *
    simp [tableExists, List.any_append, h]

lemma countTables_make_sure_fresh (db : DbState) (rel : Relation) (columns : List Column)
    (key : Option String) (h0 : countTables db rel = 0) :
    countTables (make_sure_table_exists db rel columns key) rel = 1 := by
  have hex : tableExists db rel = false := by
    by_contra hc
    simp only [Bool.not_eq_false] at hc
    have := (tableExists_iff_countTables_pos db rel).mp hc
    omega
  unfold make_sure_table_exists
  rw [hex]
  simp only [Bool.false_eq_true, if_false]
  unfold countTables at h0 ⊢
  rw [List.filter_append, List.length_append, h0]
  simp [List.filter_cons]

/-- C5: `make_sure_table_exists` is idempotent — the second call returns the
state of the first unchanged (so no duplicate-table error can arise, the
statement being `CREATE TABLE IF NOT EXISTS`); starting from a state without
the table, two calls leave exactly one catalog entry for it; and a call
against an already-existing table never alters the database state. -/
theorem make_sure_table_exists_idempotent :
    (∀ (db : DbState) (rel : Relation) (cols cols' : List Column) (key key' : Option String),
      make_sure_table_exists (make_sure_table_exists db rel cols key) rel cols' key' =
        make_sure_table_exists db rel cols key) ∧
    (∀ (db : DbState) (rel : Relation) (cols cols' : List Column) (key key' : Option String),
      countTables db rel = 0 →
      countTables (make_sure_table_exists (make_sure_table_exists db rel cols key)
        rel cols' key') rel = 1) ∧
    (∀ (db : DbState) (rel : Relation) (cols : List Column) (key : Option String),
      tableExists db rel = true → make_sure_table_exists db rel cols key = db) := by
  have hexists : ∀ (db : DbState) (rel : Relation) (cols : List Column) (key : Option String),
      tableExists db rel = true → make_sure_table_exists db rel cols key = db := by
    intro db rel cols key h
    unfold make_sure_table_exists
    rw [h]
    simp
  have hidem : ∀ (db : DbState) (rel : Relation) (cols cols' : List Column)
      (key key' : Option String),
      make_sure_table_exists (make_sure_table_exists db rel cols key) rel cols' key' =
        make_sure_table_exists db rel cols key := by
    intro db rel cols cols' key key'
    exact hexists _ rel cols' key' (tableExists_make_sure db rel cols key)
  refine ⟨hidem, ?_, hexists⟩
  intro db rel cols cols' key key' h0
  rw [hidem]
  exact countTables_make_sure_fresh db rel cols key h0

/-- Witness for C5 on an empty catalog and the concrete `address` target. -/
theorem make_sure_table_exists_idempotent_witness :
    countTables [] ⟨"target", "public", "address"⟩ = 0 ∧
    countTables
      (make_sure_table_exists
        (make_sure_table_exists [] ⟨"target", "public", "address"⟩
          [⟨"id", "INTEGER"⟩] (some "id"))
        ⟨"target", "public", "address"⟩ [⟨"id", "INTEGER"⟩] (some "id"))
      ⟨"target", "public", "address"⟩ = 1 :=
  ⟨by decide,
    make_sure_table_exists_idempotent.2.1 [] ⟨"target", "public", "address"⟩
      [⟨"id", "INTEGER"⟩] [⟨"id", "INTEGER"⟩] (some "id") (some "id") (by decide)⟩

/-! ### DDL text built by `make_sure_table_exists` (etl.py lines 61-63) -/

/-- One column definition without any constraint: `"name" type`. -/
def baseColumnDDL (col : Column) : String :=
  "\"" ++ col.name ++ "\" " ++ col.type

/-- Embedding of the per-column f-string
`f'"{col.name}" {col.type}{" UNIQUE" if key==col.name else ""}'`.
`key` is `Option String` because the driver passes `None` for the log table;
Python's `None == col.name` is `False`, matching `none = some col.name` being
false. -/
def columnDDL (key : Option String) (col : Column) : String :=
  "\"" ++ col.name ++ "\" " ++ col.type ++ (if key == some col.name then " UNIQUE" else "")

/-- Embedding of the `',\n                         '.join(...)` building `cols_ddl`. -/
def cols_ddl (key : Option String) (columns : List Column) : String :=
  String.intercalate ",\n                         " (columns.map (columnDDL key))

/-- The columns of `columns` whose definition carries the UNIQUE constraint. -/
def uniqueColumns (key : Option String) (columns : List Column) : List Column :=
  columns.filter (fun c => key == some c.name)

lemma columnDDL_of_key_eq (col : Column) :
    columnDDL (some col.name) col = baseColumnDDL col ++ " UNIQUE" := by
  unfold columnDDL baseColumnDDL
  rw [if_pos (beq_self_eq_true (some col.name))]

lemma columnDDL_of_key_ne (key : Option String) (col : Column) (h : key ≠ some col.name) :
    columnDDL key col = baseColumnDDL col := by
  unfold columnDDL baseColumnDDL
  rw [if_neg, String.append_empty]
  intro hb
  exact h (beq_iff_eq.mp hb)

lemma baseColumnDDL_ne_unique (col : Column) :
    baseColumnDDL col ≠ baseColumnDDL col ++ " UNIQUE" := by
  intro h
  have hlen := congrArg String.length h
  rw [String.length_append] at hlen
  have h7 : " UNIQUE".length = 7 := rfl
  rw [h7] at hlen
  omega

lemma uniqueColumns_len_le_one (key : Option String) (columns : List Column)
    (hnd : (columns.map Column.name).Nodup) :
    (uniqueColumns key columns).length ≤ 1 := by
  induction columns with
  | nil => simp [uniqueColumns]
  | cons c cs ih =>
      rw [List.map_cons, List.nodup_cons] at hnd
      by_cases h : key == some c.name
      · have hkey : key = some c.name := beq_iff_eq.mp h
        have htail : cs.filter (fun x => key == some x.name) = [] := by
          rw [List.filter_eq_nil_iff]
          intro x hx
          intro hbx
          have : key = some x.name := beq_iff_eq.mp hbx
          rw [hkey] at this
          have : c.name = x.name := by
            injection this
          exact hnd.1 (this ▸ List.mem_map_of_mem Column.name hx)
        simp [uniqueColumns, List.filter_cons, h, htail]
      · simp only [uniqueColumns, List.filter_cons, h]
        exact ih hnd.2

/-- C8: in the DDL built by `make_sure_table_exists`, a column's definition
carries the `UNIQUE` suffix exactly when its name equals the key argument;
with pairwise-distinct column names at most one column receives the
constraint; and when the key is null (None) no column receives it. -/
theorem unique_constraint_on_key_column (key : Option String) (columns : List Column) :
    (∀ c ∈ columns, columnDDL key c = baseColumnDDL c ++ " UNIQUE" ↔ key = some c.name) ∧
    ((columns.map Column.name).Nodup → (uniqueColumns key columns).length ≤ 1) ∧
    (uniqueColumns none columns = []) := by
  refine ⟨?_, uniqueColumns_len_le_one key columns, ?_⟩
  · intro c _
    constructor
    · intro h
      by_contra hne
      rw [columnDDL_of_key_ne key c hne] at h
      exact baseColumnDDL_ne_unique c h
    · intro h
      rw [h]
      exact columnDDL_of_key_eq c
  · rw [uniqueColumns, List.filter_eq_nil_iff]
    intro c _
    simp

/-- Witness for C8 on the concrete log-table schema from `main` (key None)
and the address key column. -/
theorem unique_constraint_on_key_column_witness :
    (columnDDL (some "id") ⟨"id", "INTEGER"⟩ =
      baseColumnDDL ⟨"id", "INTEGER"⟩ ++ " UNIQUE") ∧
    ((([⟨"schema_name", "TEXT"⟩, ⟨"relation_name", "TEXT"⟩,
        ⟨"loaded", "TIMESTAMPTZ"⟩] : List Column).map Column.name).Nodup ∧
      (uniqueColumns none [⟨"schema_name", "TEXT"⟩, ⟨"relation_name", "TEXT"⟩,
        ⟨"loaded", "TIMESTAMPTZ"⟩]).length ≤ 1) :=
  ⟨((unique_constraint_on_key_column (some "id") [⟨"id", "INTEGER"⟩]).1
      ⟨"id", "INTEGER"⟩ (by decide)).mpr rfl,
    by decide,
    (unique_constraint_on_key_column none _).2.1 (by decide)⟩

/-! ### The range copier (`copy`, etl.py lines 83-102) -/

/-- One row of a source or destination table, as fetched by `SELECT *`:
its field values in column order, modelled as `Int`s. -/
structure Row where
  fields : List Int
deriving DecidableEq, Repr

/-- PostgreSQL semantics of `t <@ DATERANGE(lo, NULL, '[)')`, which the copy
query uses as its WHERE clause: the lower bound is inclusive (`[`), the upper
bound is NULL hence unbounded, and a NULL lower bound (`last_upload is None`)
also means unbounded, so every value is contained. -/
def daterangeLowerContains (lo : Option Int) (t : Int) : Bool :=
  match lo with
  | none => true
  | some w => decide (w ≤ t)

/-- Field of `r` sitting in column index `i` (0 outside the row, which the
claims never exercise). -/
def Row.field (r : Row) (i : Nat) : Int :=
  r.fields.getD i 0

/-- `INSERT ... ON CONFLICT ("key") DO NOTHING` semantics for one row: when the
destination already holds a row with the same value in the unique key column,
the insert is silently skipped (no constraint-violation error — the model is
total); otherwise the row is appended. -/
def insertOnConflictDoNothing (keyIdx : Nat) (tbl : List Row) (r : Row) : List Row :=
  if tbl.any (fun t => t.field keyIdx == r.field keyIdx) then tbl else tbl ++ [r]

/-- Everything observable about one `copy(src, tgt, key_field, tstz_field,
last_upload)` call. -/
structure CopyEffects where
  selectedRows : List Row
  insertSQL : String
  executemanyCalls : List (String × List Row)
  newTarget : List Row
deriving Repr

/-- Embedding of `copy` (etl.py lines 83-102).  Inputs: the source table's
rows `srcRows`; the cursor description `desc` (the column names the SELECT
returns, in order); the index `tsIdx` of the timestamp column and `keyIdx` of
the key column within that order; the destination table's rows `tgtRows`; the
destination relation and key-column name used in the SQL text; and the
watermark `last_upload` (`none` embeds Python `None`).
Steps, as in the source: execute
`SELECT * FROM src WHERE "tstz_field" <@ DATERANGE(%s::DATE, NULL, '[)')` and
fetch all rows; join the description's column names with `", "` into the
insert column list and build one `%s` placeholder per column; build the
insert statement with `ON CONFLICT ("key_field") DO NOTHING`; run a single
`executemany` over the fetched rows. -/
def copy (srcRows : List Row) (desc : List String) (tsIdx keyIdx : Nat)
    (tgtRows : List Row) (tgt : Relation) (key_field : String)
    (last_upload : Option Int) : CopyEffects :=
  let fetched := srcRows.filter (fun r => daterangeLowerContains last_upload (r.field tsIdx))
  let columns := String.intercalate "\", \"" desc
  let placeholders := String.intercalate ", " (List.replicate desc.length "%s")
  let insert_query :=
    "INSERT INTO \"" ++ tgt.schema ++ "\".\"" ++ tgt.name ++ "\" (\"" ++ columns ++
      "\") VALUES (" ++ placeholders ++ ") ON CONFLICT (\"" ++ key_field ++ "\") DO NOTHING;"
  { selectedRows := fetched
    insertSQL := insert_query
    executemanyCalls := [(insert_query, fetched)]
    newTarget := fetched.foldl (insertOnConflictDoNothing keyIdx) tgtRows }

/-- Rows reached by the executemany fold either were already in the
destination or come from the inserted batch. -/
lemma mem_foldl_insert (keyIdx : Nat) (rows : List Row) (tbl : List Row) (x : Row)
    (hx : x ∈ rows.foldl (insertOnConflictDoNothing keyIdx) tbl) :
    x ∈ tbl ∨ x ∈ rows := by
  induction rows generalizing tbl with
  | nil => exact Or.inl hx
  | cons r rs ih =>
      rw [List.foldl_cons] at hx
      rcases ih (insertOnConflictDoNothing keyIdx tbl r) hx with h | h
      · unfold insertOnConflictDoNothing at h
        by_cases hc : tbl.any (fun t => t.field keyIdx == r.field keyIdx) = true
        · rw [hc] at h
          simp only [if_true] at h
          exact Or.inl h
        · simp only [Bool.not_eq_true] at hc
          rw [hc] at h
          simp only [Bool.false_eq_true, if_false, List.mem_append,
            List.mem_singleton] at h
          rcases h with h | h
          · exact Or.inl h
          · exact Or.inr (h ▸ List.mem_cons_self r rs)
      · exact Or.inr (List.mem_cons_of_mem r h)

/-- C1: with a non-null watermark `w`, `copy` selects exactly the source rows
whose timestamp column lies in the half-open range `[w, ∞)` (timestamp ≥ w),
and the call never inserts into the destination a row whose timestamp falls
outside that range: every row of the resulting destination state either was
there before the call or has timestamp ≥ w. -/
theorem copy_watermark_half_open (srcRows : List Row) (desc : List String)
    (tsIdx keyIdx : Nat) (tgtRows : List Row) (tgt : Relation) (key_field : String)
    (w : Int) :
    (∀ r, r ∈ (copy srcRows desc tsIdx keyIdx tgtRows tgt key_field (some w)).selectedRows ↔
        r ∈ srcRows ∧ w ≤ r.field tsIdx) ∧
    (∀ x ∈ (copy srcRows desc tsIdx keyIdx tgtRows tgt key_field (some w)).newTarget,
        x ∈ tgtRows ∨ w ≤ x.field tsIdx) := by
  constructor
  · intro r
    show r ∈ srcRows.filter _ ↔ _
    rw [List.mem_filter]
    unfold daterangeLowerContains
    simp
  · intro x hx
    have hmem := mem_foldl_insert keyIdx _ tgtRows x hx
    rcases hmem with h | h
    · exact Or.inl h
    · rcases List.mem_filter.mp h with ⟨_, hts⟩
      unfold daterangeLowerContains at hts
      simp only [decide_eq_true_eq] at hts
      exact Or.inr hts

/-- Witness for C1 at a concrete source: with watermark 5, the row with
timestamp 10 is selected and every row of the new destination state is either
pre-existing or has timestamp ≥ 5. -/
theorem copy_watermark_half_open_witness :
    ((⟨[10]⟩ : Row) ∈ (copy [⟨[10]⟩, ⟨[3]⟩] ["created_at"] 0 0 []
        ⟨"target", "public", "address"⟩ "id" (some 5)).selectedRows) ∧
    ((⟨[10]⟩ : Row) ∈ (copy [⟨[10]⟩, ⟨[3]⟩] ["created_at"] 0 0 []
        ⟨"target", "public", "address"⟩ "id" (some 5)).newTarget →
      (⟨[10]⟩ : Row) ∈ ([] : List Row) ∨ (5 : Int) ≤ Row.field ⟨[10]⟩ 0) :=
  ⟨((copy_watermark_half_open [⟨[10]⟩, ⟨[3]⟩] ["created_at"] 0 0 []
        ⟨"target", "public", "address"⟩ "id" 5).1 ⟨[10]⟩).mpr
      ⟨by decide, by decide⟩,
    (copy_watermark_half_open [⟨[10]⟩, ⟨[3]⟩] ["created_at"] 0 0 []
        ⟨"target", "public", "address"⟩ "id" 5).2 ⟨[10]⟩⟩

/-- C2: with watermark `none`, `copy` selects every source row (no lower
timestamp bound), passes all fetched rows to one single executemany call, and
the insert statement's column list is exactly the column list returned by the
source query (`desc`), joined in the same order. -/
theorem copy_null_watermark_all_rows (srcRows : List Row) (desc : List String)
    (tsIdx keyIdx : Nat) (tgtRows : List Row) (tgt : Relation) (key_field : String) :
    (copy srcRows desc tsIdx keyIdx tgtRows tgt key_field none).selectedRows = srcRows ∧
    (copy srcRows desc tsIdx keyIdx tgtRows tgt key_field none).executemanyCalls =
      [((copy srcRows desc tsIdx keyIdx tgtRows tgt key_field none).insertSQL, srcRows)] ∧
    (copy srcRows desc tsIdx keyIdx tgtRows tgt key_field none).insertSQL =
      "INSERT INTO \"" ++ tgt.schema ++ "\".\"" ++ tgt.name ++ "\" (\"" ++
        String.intercalate "\", \"" desc ++ "\") VALUES (" ++
        String.intercalate ", " (List.replicate desc.length "%s") ++
        ") ON CONFLICT (\"" ++ key_field ++ "\") DO NOTHING;" := by
  have hall : (copy srcRows desc tsIdx keyIdx tgtRows tgt key_field none).selectedRows
      = srcRows := by
    show srcRows.filter _ = srcRows
    rw [List.filter_eq_self]
    intro r _
    rfl
  refine ⟨hall, ?_, rfl⟩
  have hcalls : (copy srcRows desc tsIdx keyIdx tgtRows tgt key_field none).executemanyCalls =
      [((copy srcRows desc tsIdx keyIdx tgtRows tgt key_field none).insertSQL,
        (copy srcRows desc tsIdx keyIdx tgtRows tgt key_field none).selectedRows)] := rfl
  rw [hcalls, hall]

/-- C6: every insert statement built by `copy` ends with the
`ON CONFLICT ("<key>") DO NOTHING` clause, and under its semantics inserting a
row whose key column value already exists in the destination leaves the table
unchanged (skipped silently, never a constraint-violation error). -/
theorem insert_on_conflict_do_nothing :
    (∀ (srcRows : List Row) (desc : List String) (tsIdx keyIdx : Nat)
        (tgtRows : List Row) (tgt : Relation) (key_field : String)
        (last_upload : Option Int),
      ∃ p, (copy srcRows desc tsIdx keyIdx tgtRows tgt key_field last_upload).insertSQL =
        p ++ ("ON CONFLICT (\"" ++ key_field ++ "\") DO NOTHING;")) ∧
    (∀ (keyIdx : Nat) (tbl : List Row) (r : Row),
      (∃ t ∈ tbl, t.field keyIdx = r.field keyIdx) →
      insertOnConflictDoNothing keyIdx tbl r = tbl) := by
  constructor
  · intro srcRows desc tsIdx keyIdx tgtRows tgt key_field last_upload
    refine ⟨"INSERT INTO \"" ++ tgt.schema ++ "\".\"" ++ tgt.name ++ "\" (\"" ++
      String.intercalate "\", \"" desc ++ "\") VALUES (" ++
      String.intercalate ", " (List.replicate desc.length "%s") ++ ") ", ?_⟩
    show "INSERT INTO \"" ++ tgt.schema ++ "\".\"" ++ tgt.name ++ "\" (\"" ++
      String.intercalate "\", \"" desc ++ "\") VALUES (" ++
      String.intercalate ", " (List.replicate desc.length "%s") ++
      ") ON CONFLICT (\"" ++ key_field ++ "\") DO NOTHING;" = _
    rw [show (") ON CONFLICT (\"" : String) = ") " ++ "ON CONFLICT (\"" from rfl]
    simp only [String.append_assoc]
  · rintro keyIdx tbl r ⟨t, ht, hkey⟩
    unfold insertOnConflictDoNothing
    rw [if_pos]
    rw [List.any_eq_true]
    exact ⟨t, ht, by rw [hkey]; exact beq_self_eq_true _⟩

/-- Witness for C6: inserting a row whose key (column 0) value 1 already
exists in the destination leaves the destination unchanged. -/
theorem insert_on_conflict_do_nothing_witness :
    (∃ t ∈ [(⟨[1, 7]⟩ : Row)], Row.field t 0 = Row.field ⟨[1, 9]⟩ 0) ∧
    insertOnConflictDoNothing 0 [⟨[1, 7]⟩] ⟨[1, 9]⟩ = [⟨[1, 7]⟩] :=
  ⟨⟨⟨[1, 7]⟩, by decide, by decide⟩,
    insert_on_conflict_do_nothing.2 0 [⟨[1, 7]⟩] ⟨[1, 9]⟩
      ⟨⟨[1, 7]⟩, by decide, by decide⟩⟩

/-! ### The `connect` context manager (etl.py lines 20-35) -/

/-- The resource actions the `finally` block of `connect` can perform. -/
inductive Action where
  | commit
  | closeCursor
  | closeConn
deriving DecidableEq, Repr

/-- Embedding of one run of the `connect(db)` scope.  `connOk` is whether
`psycopg2.connect(**dsn)` succeeds, `cursorOk` whether `conn.cursor()`
succeeds, `bodyRaises` whether the code inside the `with` block raises.
Result: the list of actions the `finally` block performs (in order) and
whether an exception propagates out of the scope.
Per the source: `conn, cursor = None, None`; the `finally` block runs
`if conn: conn.commit()`, `if cursor: cursor.close()`, `if conn: conn.close()`
on every exit path, so an acquisition failure leaves the corresponding
variable `None` and its actions are skipped. -/
def connectRun (connOk cursorOk bodyRaises : Bool) : List Action × Bool :=
  if !connOk then
    ([], true)
  else if !cursorOk then
    ([Action.commit, Action.closeConn], true)
  else
    ([Action.commit, Action.closeCursor, Action.closeConn], bodyRaises)

/-- State of the underlying connection: statements executed but not yet
committed, and statements made durable by a commit. -/
structure ConnState where
  pending : List String
  durable : List String
deriving DecidableEq, Repr

/-- `cursor.execute(q)`: the statement joins the open transaction. -/
def execStmt (s : ConnState) (q : String) : ConnState :=
  { s with pending := s.pending ++ [q] }

/-- `conn.commit()`: pending statements become durable. -/
def commitConn (s : ConnState) : ConnState :=
  { pending := [], durable := s.durable ++ s.pending }

/-- One run of a `connect` scope at the connection-state level: the body
executes `stmts` on a fresh connection and then either returns or raises
(`bodyRaises`); the `finally` block then runs `conn.commit()` unconditionally.
Returns the final connection state and whether an exception propagates. -/
def connectScope (stmts : List String) (bodyRaises : Bool) : ConnState × Bool :=
  (commitConn (stmts.foldl execStmt ⟨[], []⟩), bodyRaises)

lemma foldl_execStmt (stmts : List String) (p d : List String) :
    stmts.foldl execStmt ⟨p, d⟩ = ⟨p ++ stmts, d⟩ := by
  induction stmts generalizing p with
  | nil => simp
  | cons q qs ih =>
      rw [List.foldl_cons]
      show qs.foldl execStmt ⟨p ++ [q], d⟩ = _
      rw [ih (p ++ [q])]
      simp

/-- C9: on every exit path of the `connect` scope — normal completion, a body
exception, or a failure while acquiring the cursor — whenever the connection
was acquired it is closed, whenever the cursor was acquired it is closed, and
every close happens after the commit step (the action list starts with
`commit` and ends with `closeConn`); when nothing was acquired the `finally`
block performs no action. -/
theorem connect_releases_resources (connOk cursorOk bodyRaises : Bool) :
    (connOk = true →
      Action.closeConn ∈ (connectRun connOk cursorOk bodyRaises).1 ∧
      (connectRun connOk cursorOk bodyRaises).1.head? = some Action.commit ∧
      (connectRun connOk cursorOk bodyRaises).1.getLast? = some Action.closeConn) ∧
    (connOk = true → cursorOk = true →
      Action.closeCursor ∈ (connectRun connOk cursorOk bodyRaises).1) ∧
    (connOk = false → (connectRun connOk cursorOk bodyRaises).1 = []) := by
  cases connOk <;> cases cursorOk <;> cases bodyRaises <;>
    refine ⟨?_, ?_, ?_⟩ <;> intros <;> simp_all <;> decide

/-- Witness for C9 on the path where everything is acquired and the body
raises. -/
theorem connect_releases_resources_witness :
    Action.closeConn ∈ (connectRun true true true).1 ∧
    (connectRun true true true).1.head? = some Action.commit ∧
    (connectRun true true true).1.getLast? = some Action.closeConn ∧
    Action.closeCursor ∈ (connectRun true true true).1 :=
  ⟨((connect_releases_resources true true true).1 rfl).1,
    ((connect_releases_resources true true true).1 rfl).2.1,
    ((connect_releases_resources true true true).1 rfl).2.2,
    (connect_releases_resources true true true).2.1 rfl rfl⟩

/-- C10: when the body of a `connect` scope raises after the connection was
established, `conn.commit()` is still invoked by the `finally` block (before
the closes), so every statement the body executed before the failure ends up
durable — nothing is rolled back — while the exception still propagates. -/
theorem connect_commits_on_exception (stmts : List String) :
    (connectScope stmts true).1.durable = stmts ∧
    (connectScope stmts true).1.pending = [] ∧
    (connectScope stmts true).2 = true ∧
    Action.commit ∈ (connectRun true true true).1 := by
  refine ⟨?_, rfl, rfl, by decide⟩
  show (commitConn (stmts.foldl execStmt ⟨[], []⟩)).durable = stmts
  rw [foldl_execStmt stmts [] []]
  simp [commitConn]

/-! ### The driver (`main`, etl.py lines 119-159) -/

/-- The relations hardcoded in `main`. -/
def source_address : Relation := ⟨"source", "public", "address"⟩

def target_address : Relation := ⟨"target", "public", "address"⟩

def source_company : Relation := ⟨"source", "public", "company"⟩

def target_company : Relation := ⟨"target", "public", "company"⟩

def log_relation : Relation := ⟨"target", "public", "etl_runs"⟩

/-- The (source, target, key column, timestamp column) tuples `main` processes,
in order. -/
def mainPairs : List (Relation × Relation × String × String) :=
  [(source_address, target_address, "id", "created_at"),
   (source_company, target_company, "company_id", "created_at")]

/-- The observable steps of one tuple's processing in `main`, in program
order. -/
inductive Event where
  | readWatermark (rel : Relation) (result : Option Int)
  | captureNow (t : Int)
  | copyCall (src tgt : Relation) (key tsf : String) (last_upload : Option Int)
  | writeWatermark (rel : Relation) (t : Int)
deriving DecidableEq, Repr

/-- Result of processing one configured tuple in `main`. -/
structure DriverStep where
  events : List Event
  copyEffects : CopyEffects
  newLog : List WatermarkRec

/-- Embedding of one tuple's processing in `main` (etl.py lines 147-151 for
`address`, 153-157 for `company`):
`last_upload = get_last_uploaded_time(tgt, log)`; `today = date.today()`
(captured before the copy, modelled by the `today` parameter and the
`captureNow` event); `copy(src, tgt, key, tsf, last_upload)` — note the
timestamp argument handed to `copy` is `last_upload`, the previously stored
watermark; finally `log_upload(tgt, log, today)`. -/
def processPair (srcRows : List Row) (desc : List String) (tsIdx keyIdx : Nat)
    (tgtRows : List Row) (logTbl : List WatermarkRec) (src tgt : Relation)
    (key tsf : String) (today : Int) : DriverStep :=
  let last_upload := get_last_uploaded_time tgt logTbl
  let eff := copy srcRows desc tsIdx keyIdx tgtRows tgt key last_upload
  { events := [Event.readWatermark tgt last_upload,
               Event.captureNow today,
               Event.copyCall src tgt key tsf last_upload,
               Event.writeWatermark tgt today]
    copyEffects := eff
    newLog := log_upload tgt logTbl today }

/-- Counterexample to C4 as stated: with the stored watermark 5 for the
`address` target and `today = 10`, the driver never invokes the copier with
`now = 10` as its timestamp argument (it passes the prior watermark 5), and a
source row timestamped 100 — far beyond `now` — is still selected, so `now`
is no upper bound of the copy range either. -/
theorem driver_not_given_now_cex :
    (Event.copyCall source_address target_address "id" "created_at" (some 10) ∉
      (processPair [⟨[100]⟩] ["created_at"] 0 0 [] [⟨"public", "address", 5⟩]
        source_address target_address "id" "created_at" 10).events) ∧
    (⟨[100]⟩ : Row) ∈
      (processPair [⟨[100]⟩] ["created_at"] 0 0 [] [⟨"public", "address", 5⟩]
        source_address target_address "id" "created_at" 10).copyEffects.selectedRows := by
  constructor
  · decide
  · decide

/-- C4 as amended: for each configured tuple the driver runs the copier with
the previously stored watermark as its (lower) reference timestamp — the copy
range has no upper end and "now" is not passed to the copier — reads the
watermark and captures "now" before the copy runs, and after the copy writes
the new watermark as that "now" value captured at the start of the tuple's
processing, so reading the log afterwards returns it. -/
theorem driver_watermark_captured_before_copy (srcRows : List Row) (desc : List String)
    (tsIdx keyIdx : Nat) (tgtRows : List Row) (logTbl : List WatermarkRec)
    (src tgt : Relation) (key tsf : String) (today : Int) :
    (processPair srcRows desc tsIdx keyIdx tgtRows logTbl src tgt key tsf today).events =
      [Event.readWatermark tgt (get_last_uploaded_time tgt logTbl),
       Event.captureNow today,
       Event.copyCall src tgt key tsf (get_last_uploaded_time tgt logTbl),
       Event.writeWatermark tgt today] ∧
    (processPair srcRows desc tsIdx keyIdx tgtRows logTbl src tgt key tsf today).newLog =
      log_upload tgt logTbl today ∧
    get_last_uploaded_time tgt
      (processPair srcRows desc tsIdx keyIdx tgtRows logTbl src tgt key tsf today).newLog =
      some today :=
  ⟨rfl, rfl, read_after_write tgt logTbl today⟩

end Etl
